import Mathlib

/-!
Formal model of the bloodray tool-test orchestration engine.

The definitions below are shallow embeddings of the Python source:
threshold estimation, verdict rule and run orchestration from
src/app/gui.py (TestApp.run_test, TestApp.camera_loop) and
src/app/guiExp.py (TestApp.run_test, TestApp._start_analysis_loop,
TestApp._mist_and_rotate), heatmap accumulation and normalization from
both files, and the persistence layer from src/app/db.py (save_run with
INSERT OR REPLACE on the primary key id).

Brightness values are modelled as rationals.  Floating-point square
root (np.std) is handled by characterizing the standard deviation
through its square (IsBaselineStd) rather than computing it.
-/

namespace Bloodray

/-- Absolute guard band in brightness units: GUARD_ABS in gui.py. -/
def GUARD_ABS : ℚ := 1/10

/-- Multiplier on the baseline standard deviation: GUARD_SIGMA in gui.py. -/
def GUARD_SIGMA : ℚ := 3

/-- Absolute guard band on frame means: GUARD_MEAN_ABS in guiExp.py. -/
def GUARD_MEAN_ABS : ℚ := 5

/-- Multiplier on the std dev of frame means: GUARD_MEAN_SIGMA in guiExp.py. -/
def GUARD_MEAN_SIGMA : ℚ := 3

/-- Baseline quantile (in percent) used by guiExp.py: BASELINE_Q = 99.5. -/
def BASELINE_Q : ℚ := 199/2

/-- The samples in ascending order, as np.percentile sorts them. -/
def sortedSamples (xs : List ℚ) : List ℚ :=
  List.insertionSort (fun a b => a ≤ b) xs

/-- Fractional index q per cent of the way along the range 0 .. n-1. -/
def percentilePos (q : ℚ) (n : ℕ) : ℚ := q * ((n : ℚ) - 1) / 100

/-- Linear-interpolation percentile, the default method of
np.percentile: sort the samples, take the position q per cent of the
way along the index range 0 .. n-1, and interpolate linearly between
the two neighbouring order statistics. -/
def percentile (q : ℚ) (xs : List ℚ) : ℚ :=
  let s := sortedSamples xs
  let n := xs.length
  let pos := percentilePos q n
  let i : ℕ := (⌊pos⌋).toNat
  let frac : ℚ := pos - (⌊pos⌋ : ℚ)
  let lo : ℚ := s.getD i 0
  let hi : ℚ := s.getD (min (i + 1) (n - 1)) 0
  lo + frac * (hi - lo)

/-- Arithmetic mean of the samples, as np.mean computes it. -/
def sampleMean (xs : List ℚ) : ℚ := xs.sum / (xs.length : ℚ)

/-- Square of np.std(xs, ddof=1) guarded by the length check of the
source: sum of squared deviations over n - 1 when n is above 1, and 0
otherwise (the source substitutes 0.0 for the std when n is 1). -/
def unbiasedVariance (xs : List ℚ) : ℚ :=
  if 1 < xs.length then
    (xs.map (fun x => (x - sampleMean xs) ^ 2)).sum / ((xs.length : ℚ) - 1)
  else 0

/-- The value the source binds to b_std: the nonnegative square root of
the unbiased sample variance (0 when fewer than two samples). -/
def IsBaselineStd (xs : List ℚ) (s : ℚ) : Prop :=
  0 ≤ s ∧ s ^ 2 = unbiasedVariance xs

/-- Guard band of gui.py: max(GUARD_ABS, GUARD_SIGMA * b_std). -/
def guardBandGui (bstd : ℚ) : ℚ := max GUARD_ABS (GUARD_SIGMA * bstd)

/-- Effective threshold of gui.py: baseline p95 plus the guard band. -/
def effectiveThresholdGui (q bstd : ℚ) : ℚ := q + guardBandGui bstd

/-- np.clip(x, lo, hi) = minimum(hi, maximum(x, lo)). -/
def npClip (x lo hi : ℚ) : ℚ := min hi (max x lo)

/-- Guard band of guiExp.py: max(GUARD_MEAN_ABS, GUARD_MEAN_SIGMA * std_mean). -/
def guardBandExp (bstd : ℚ) : ℚ := max GUARD_MEAN_ABS (GUARD_MEAN_SIGMA * bstd)

/-- The ThresholdModel record of the spec data model. -/
structure ThresholdModel where
  baselineQuantile : ℚ
  baselineStd : ℚ
  guardBand : ℚ
  effectiveThreshold : ℚ

/-- Threshold estimator of gui.py run_test (non-empty branch): p95 of
the samples, guard band from the std, effective threshold unclamped. -/
def estimateThresholdGui (samples : List ℚ) (bstd : ℚ) : ThresholdModel :=
  { baselineQuantile := percentile 95 samples
    baselineStd := bstd
    guardBand := guardBandGui bstd
    effectiveThreshold := effectiveThresholdGui (percentile 95 samples) bstd }

/-- Threshold estimator of guiExp.py run_test (non-empty branch):
q99.5 of the frame means, guard band from the std of the means, and the
effective threshold clamped by np.clip to the 0..255 brightness range. -/
def estimateThresholdExp (samples : List ℚ) (bstd : ℚ) : ThresholdModel :=
  { baselineQuantile := percentile BASELINE_Q samples
    baselineStd := bstd
    guardBand := guardBandExp bstd
    effectiveThreshold := npClip (percentile BASELINE_Q samples + guardBandExp bstd) 0 255 }

/-- test_failed of run_test: thr is not None and max_light exceeds thr. -/
def testFailed (thr : Option ℚ) (maxLight : ℚ) : Bool :=
  match thr with
  | none => false
  | some t => decide (t < maxLight)

/-- result_text of run_test: FAILED when test_failed, else PASSED. -/
def resultText (thr : Option ℚ) (maxLight : ℚ) : String :=
  if testFailed thr maxLight then "FAILED" else "PASSED"

/-- Screens the run worker can hand to the Tk thread at the end of a
run: the yellow seal warning, or the PASS/FAIL result screen. -/
inductive Screen where
  | sealWarning
  | result (text : String)
deriving DecidableEq

/-- Observable outcome of one execution of TestApp.run_test in gui.py,
from the point where the baseline sample list is fixed: the two
threshold values, how many times the mist worker, the rotation worker
and the analysis (camera_loop) iterations were invoked, the status
argument of the attempted save_run call, the status actually committed
to the store, the screen handed to the GUI, and whether an exception
escaped the run worker. -/
structure RunOutcome where
  dynThreshold : ℚ
  effThreshold : ℚ
  mistCalls : ℕ
  rotationCalls : ℕ
  analysisFrames : ℕ
  saveArg : Option String
  savedStatus : Option String
  screen : Option Screen
  uncaught : Bool

/-- dynamic_threshold after the baseline block of run_test: 255.0 when
every baseline read failed, else the p95 of the samples. -/
def runDyn (samples : List ℚ) : ℚ :=
  if samples = [] then 255 else percentile 95 samples

/-- effective_threshold after the baseline block of run_test: 255.0
when every baseline read failed, else p95 plus the guard band. -/
def runEff (samples : List ℚ) (bstd : ℚ) : ℚ :=
  if samples = [] then 255 else effectiveThresholdGui (percentile 95 samples) bstd

/-- Control flow of TestApp.run_test in gui.py after baseline sampling,
as a function of the baseline samples, the std value np.std returned,
the maximum frame mean the camera loop observed, the number of analysis
iterations, and whether the store write raises.  The abort gate fires
when dynamic_threshold is at least 1.0; on that path save_run is
wrapped in try/except so a store failure is swallowed and the seal
warning screen is still shown.  On the normal path the three workers
run, the verdict is FAILED exactly when max_light exceeds the effective
threshold, and save_run is called unguarded: if it raises, the worker
thread dies before show_result_screen is scheduled. -/
def runTest (samples : List ℚ) (bstd maxLight : ℚ) (frames : ℕ) (saveFails : Bool) :
    RunOutcome :=
  let dyn := runDyn samples
  let eff := runEff samples bstd
  if 1 ≤ dyn then
    { dynThreshold := dyn
      effThreshold := eff
      mistCalls := 0
      rotationCalls := 0
      analysisFrames := 0
      saveArg := some "ABORTED_SEAL_WARNING"
      savedStatus := if saveFails then none else some "ABORTED_SEAL_WARNING"
      screen := some Screen.sealWarning
      uncaught := false }
  else
    let text := resultText (some eff) maxLight
    { dynThreshold := dyn
      effThreshold := eff
      mistCalls := 1
      rotationCalls := 1
      analysisFrames := frames
      saveArg := some text
      savedStatus := if saveFails then none else some text
      screen := if saveFails then none else some (Screen.result text)
      uncaught := saveFails }

/-- A grayscale frame or heatmap accumulator: a grid of brightness
values, row major. -/
abbrev Grid := List (List ℚ)

/-- Element-wise maximum of two rows (one row of np.maximum). -/
def rowMax (a b : List ℚ) : List ℚ := List.zipWith max a b

/-- Pixel-wise maximum of two grids (np.maximum on 2-D arrays). -/
def gridMax (a b : Grid) : Grid := List.zipWith rowMax a b

/-- One heatmap update of camera_loop in gui.py (and the analysis loop
of guiExp.py): the first frame initializes the accumulator, every later
frame is folded in by pixel-wise maximum. -/
def accumHeatmap (acc : Option Grid) (gray : Grid) : Grid :=
  match acc with
  | none => gray
  | some m => gridMax m gray

/-- The accumulator after one loop iteration, kept as an Option so that
the uninitialized state (self._heatmap_max is None) is explicit. -/
def heatmapStep (acc : Option Grid) (gray : Grid) : Option Grid :=
  some (accumHeatmap acc gray)

/-- The accumulator after processing a whole list of frames in order. -/
def processFrames (acc : Option Grid) (frames : List Grid) : Option Grid :=
  frames.foldl heatmapStep acc

/-- Brightness of pixel (i, j) of a grid, 0 outside the grid. -/
def pixel (g : Grid) (i j : ℕ) : ℚ := (g.getD i []).getD j 0

/-- A grid with h rows, each of w pixels. -/
def HasShape (h w : ℕ) (g : Grid) : Prop :=
  g.length = h ∧ ∀ r ∈ g, r.length = w

/-- State that camera_loop (gui.py) and the analysis loop (guiExp.py)
update per frame: the first-exceed latch, the running maximum mean
brightness and the analysis frame counter. -/
structure AnalysisState where
  firstExceed : Option ℚ
  maxLight : ℚ
  framesAnalysis : ℕ

/-- First-exceed update of one analysis iteration: when the threshold
is set, the latch is still empty and the frame mean exceeds the
threshold, record the elapsed time now - analysis_start; in every
other case leave the latch as it is. -/
def updateFirstExceed (thr astart cur : Option ℚ) (lv now : ℚ) : Option ℚ :=
  match thr, cur with
  | some t, none =>
    if t < lv then
      match astart with
      | some a0 => some (now - a0)
      | none => none
    else cur
  | _, _ => cur

/-- One iteration of the analysis loop over an observation (lv, now):
frame mean brightness and the current clock reading. -/
def analysisStep (thr astart : Option ℚ) (st : AnalysisState) (obs : ℚ × ℚ) :
    AnalysisState :=
  { firstExceed := updateFirstExceed thr astart st.firstExceed obs.1 obs.2
    maxLight := if st.maxLight < obs.1 then obs.1 else st.maxLight
    framesAnalysis := st.framesAnalysis + 1 }

/-- The analysis loop folded over a list of observations. -/
def runAnalysis (thr astart : Option ℚ) (st : AnalysisState) (obs : List (ℚ × ℚ)) :
    AnalysisState :=
  obs.foldl (analysisStep thr astart) st

/-- Events on the actuator hardware during the mist phase. -/
inductive ActEvent where
  | relayOn
  | relayOff
  | rotateSeg
deriving DecidableEq

/-- Whether a worker body returned normally or raised. -/
inductive ExitKind where
  | normal
  | raised
deriving DecidableEq

/-- Relay state transition for one event: relay events overwrite the
state, rotation events leave it alone. -/
def relayStep (s : Bool) (e : ActEvent) : Bool :=
  match e with
  | ActEvent.relayOn => true
  | ActEvent.relayOff => false
  | ActEvent.rotateSeg => s

/-- State of the mist relay after a trace of events, starting from the
LOW state that _init_gpio establishes. -/
def relayOnAfter (events : List ActEvent) : Bool :=
  events.foldl relayStep false

/-- Trace of TestApp._mist_worker in gui.py: return immediately when
seconds is not positive (relay untouched); raise before the relay is
driven when the GPIO attribute is unavailable (relay untouched); else
drive the relay HIGH, sleep inside a try whose finally drives it LOW,
so the LOW write happens whether or not the sleep raises. -/
def mistWorkerGui (secondsPos gpioAvailable sleepRaises : Bool) :
    List ActEvent × ExitKind :=
  if secondsPos = false then ([], ExitKind.normal)
  else if gpioAvailable = false then ([], ExitKind.raised)
  else ([ActEvent.relayOn, ActEvent.relayOff],
    if sleepRaises then ExitKind.raised else ExitKind.normal)

/-- Trace of TestApp._mist_and_rotate in guiExp.py: relay HIGH, then a
try block performing the rotation segments (each rotate_90 guarded by
its own swallowed try/except), with a finally that sets the relay LOW;
raiseAfter models an exception escaping the body after some number of
completed segments. -/
def mistAndRotateExp (segments : ℕ) (raiseAfter : Option ℕ) :
    List ActEvent × ExitKind :=
  match raiseAfter with
  | none =>
    (ActEvent.relayOn ::
      (List.replicate segments ActEvent.rotateSeg ++ [ActEvent.relayOff]),
      ExitKind.normal)
  | some k =>
    (ActEvent.relayOn ::
      (List.replicate (min k segments) ActEvent.rotateSeg ++ [ActEvent.relayOff]),
      ExitKind.raised)

/-- Min of all pixel values of the accumulator (np.min). -/
def gridMinVal (g : Grid) : ℚ :=
  (g.flatten).foldl min ((g.flatten).headD 0)

/-- Max of all pixel values of the accumulator (np.max). -/
def gridMaxVal (g : Grid) : ℚ :=
  (g.flatten).foldl max ((g.flatten).headD 0)

/-- Normalization step of _finalize_heatmap_and_metrics: when the max
projection has spread, rescale it to 0..255; otherwise (max equal to
min) produce an all-zero image, never dividing by zero. -/
def finalizeHeatmapNorm (g : Grid) : Grid :=
  if gridMinVal g < gridMaxVal g then
    g.map (List.map (fun v => (v - gridMinVal g) * (255 / (gridMaxVal g - gridMinVal g))))
  else
    g.map (List.map (fun _ => 0))

/-- One row of the test_runs table apart from its primary key id. -/
structure RunRow where
  createdAt : String
  status : String
  metricsJson : String

/-- Semantics of save_run in db.py on the test_runs table: INSERT OR
REPLACE on the primary key id removes any existing row with that id
and inserts the new one, never raising a uniqueness error. -/
def saveRunDb (table : List (String × RunRow)) (timestampId : String) (row : RunRow) :
    List (String × RunRow) :=
  (timestampId, row) :: table.filter (fun p => p.1 != timestampId)

/-- A whole sequence of save_run calls applied in order. -/
def applySaves (table : List (String × RunRow)) (calls : List (String × RunRow)) :
    List (String × RunRow) :=
  calls.foldl (fun acc c => saveRunDb acc c.1 c.2) table

/-- How many rows of the table carry a given id. -/
def rowsWithId (table : List (String × RunRow)) (timestampId : String) : ℕ :=
  (table.filter (fun p => p.1 == timestampId)).length

/-! ## Theorems -/

theorem resultText_eq_ite (t maxb : ℚ) :
    resultText (some t) maxb = if t < maxb then "FAILED" else "PASSED" := by
  simp [resultText, testFailed]

theorem resultText_eq_failed_iff (t maxb : ℚ) :
    resultText (some t) maxb = "FAILED" ↔ t < maxb := by
  rw [resultText_eq_ite]
  by_cases h : t < maxb
  · simp [h]
  · simp [h]

/-- Claim C1: for a completed (non-aborted) run with a defined
effective threshold, the verdict is FAILED iff max brightness strictly
exceeds the effective threshold, and PASSED otherwise; with baseline
quantile 0.3, std 0.02, floor 0.10 and sigma multiplier 3.0, the guard
band is 0.10, the effective threshold 0.40, max 0.5 gives FAILED and
max 0.35 gives PASSED. -/
theorem C1_verdict_rule :
    (∀ t maxb : ℚ, resultText (some t) maxb = "FAILED" ↔ t < maxb) ∧
    (∀ t maxb : ℚ, resultText (some t) maxb = "PASSED" ↔ ¬ t < maxb) ∧
    (∀ (samples : List ℚ) (bstd maxb : ℚ) (fr : ℕ) (sf : Bool),
      runDyn samples < 1 →
        ((runTest samples bstd maxb fr sf).saveArg = some "FAILED" ↔
          runEff samples bstd < maxb)) ∧
    guardBandGui (1/50) = 1/10 ∧
    effectiveThresholdGui (3/10) (1/50) = 2/5 ∧
    resultText (some (2/5)) (1/2) = "FAILED" ∧
    resultText (some (2/5)) (7/20) = "PASSED" := by
  have hfp : ("FAILED" : String) ≠ "PASSED" := by decide
  refine ⟨resultText_eq_failed_iff, ?_, ?_, ?_, ?_, ?_, ?_⟩
  · intro t maxb
    rw [resultText_eq_ite]
    by_cases h : t < maxb
    · simp [h, hfp]
    · simp [h]
  · intro samples bstd maxb fr sf h
    rw [runTest, if_neg (not_le.mpr h)]
    simpa using resultText_eq_failed_iff (runEff samples bstd) maxb
  · norm_num [guardBandGui, GUARD_ABS, GUARD_SIGMA]
  · norm_num [effectiveThresholdGui, guardBandGui, GUARD_ABS, GUARD_SIGMA]
  · rw [resultText_eq_failed_iff]
    norm_num
  · rw [resultText_eq_ite, if_neg (by norm_num)]

/-- Claim C3: with a non-empty baseline whose p95 is at least the
ambient-light sanity bound 1.0, the run aborts before any actuation:
the mist worker, rotation worker and analysis loop are never invoked,
save_run is attempted with status ABORTED_SEAL_WARNING (and commits it
when the store works), and the seal warning screen is shown. -/
theorem C3_abort_gate (samples : List ℚ) (bstd maxb : ℚ) (fr : ℕ) (sf : Bool)
    (hne : samples ≠ []) (hq : 1 ≤ percentile 95 samples) :
    (runTest samples bstd maxb fr sf).mistCalls = 0 ∧
    (runTest samples bstd maxb fr sf).rotationCalls = 0 ∧
    (runTest samples bstd maxb fr sf).analysisFrames = 0 ∧
    (runTest samples bstd maxb fr sf).saveArg = some "ABORTED_SEAL_WARNING" ∧
    (runTest samples bstd maxb fr sf).screen = some Screen.sealWarning ∧
    (runTest samples bstd maxb fr false).savedStatus = some "ABORTED_SEAL_WARNING" := by
  have hdyn : 1 ≤ runDyn samples := by
    rw [runDyn, if_neg hne]
    exact hq
  refine ⟨?_, ?_, ?_, ?_, ?_, ?_⟩ <;> simp [runTest, hdyn]

/-- Claim C3 witness: the single baseline sample 2 has p95 equal to 2,
which trips the abort gate. -/
theorem C3_abort_gate_witness :
    (runTest [2] 0 0 0 false).mistCalls = 0 ∧
    (runTest [2] 0 0 0 false).rotationCalls = 0 ∧
    (runTest [2] 0 0 0 false).analysisFrames = 0 ∧
    (runTest [2] 0 0 0 false).saveArg = some "ABORTED_SEAL_WARNING" ∧
    (runTest [2] 0 0 0 false).screen = some Screen.sealWarning ∧
    (runTest [2] 0 0 0 false).savedStatus = some "ABORTED_SEAL_WARNING" := by
  have h := C3_abort_gate [2] 0 0 0 false (by simp)
    (by norm_num [percentile, sortedSamples, percentilePos,
      List.insertionSort, List.orderedInsert])
  exact ⟨h.1, h.2.1, h.2.2.1, h.2.2.2.1, h.2.2.2.2.1, h.2.2.2.2.2⟩

/-- Claim C4, behaviour of the code at the failing input: when the
baseline sample list is empty, run_test sets the fail-safe thresholds
255 but the abort gate then compares that sentinel against 1.0 and
fires, so the run terminates with ABORTED_SEAL_WARNING and never
reaches actuation or analysis, contradicting the documented fail-safe
intent that the run should proceed. -/
theorem C4_empty_baseline_aborts :
    (runTest [] 0 0 0 false).effThreshold = 255 ∧
    (runTest [] 0 0 0 false).dynThreshold = 255 ∧
    (runTest [] 0 0 0 false).saveArg = some "ABORTED_SEAL_WARNING" ∧
    (runTest [] 0 0 0 false).mistCalls = 0 ∧
    (runTest [] 0 0 0 false).rotationCalls = 0 ∧
    (runTest [] 0 0 0 false).analysisFrames = 0 ∧
    (runTest [] 0 0 0 false).screen = some Screen.sealWarning := by
  have hdyn : 1 ≤ runDyn ([] : List ℚ) := by norm_num [runDyn]
  have he : runEff ([] : List ℚ) 0 = 255 := by norm_num [runEff]
  refine ⟨?_, ?_, ?_, ?_, ?_, ?_, ?_⟩ <;> rw [runTest, if_pos hdyn]
  · exact he
  · norm_num [runDyn]

/-- Claim C7 (amended): a store write failure is caught only on the
AbortedSealWarning path, where the seal warning screen is still shown;
on the PASSED/FAILED path save_run is called unguarded, so a write
failure escapes the run worker and no result screen is shown (the
result screen appears only when the write succeeds). -/
theorem C7_save_failure_paths (samples : List ℚ) (bstd maxb : ℚ) (fr : ℕ) :
    (∀ sf : Bool, 1 ≤ runDyn samples →
        (runTest samples bstd maxb fr sf).screen = some Screen.sealWarning ∧
        (runTest samples bstd maxb fr sf).uncaught = false) ∧
    (runDyn samples < 1 →
        (runTest samples bstd maxb fr true).screen = none ∧
        (runTest samples bstd maxb fr true).uncaught = true ∧
        (runTest samples bstd maxb fr false).screen =
          some (Screen.result (resultText (some (runEff samples bstd)) maxb)) ∧
        (runTest samples bstd maxb fr false).uncaught = false) := by
  constructor
  · intro sf h
    rw [runTest, if_pos h]
    exact ⟨rfl, rfl⟩
  · intro h
    have h2 : ¬ 1 ≤ runDyn samples := not_le.mpr h
    refine ⟨?_, ?_, ?_, ?_⟩ <;> simp [runTest, h2]

/-- Claim C7 counterexample: on a normal (non-aborted) run whose store
write fails, the exception escapes the run worker and no result screen
is shown, refuting the claim that every terminal path still shows its
screen when the write fails. -/
theorem C7_counterexample :
    (runTest [(1:ℚ)/2] 0 0 0 true).screen = none ∧
    (runTest [(1:ℚ)/2] 0 0 0 true).uncaught = true := by
  have h : runDyn [(1:ℚ)/2] < 1 := by
    rw [runDyn, if_neg (by simp)]
    norm_num [percentile, sortedSamples, percentilePos,
      List.insertionSort, List.orderedInsert]
  have h2 : ¬ 1 ≤ runDyn [(1:ℚ)/2] := not_le.mpr h
  constructor <;> simp only [runTest, if_neg h2, if_true]

theorem foldl_relayStep_snoc_off (s : Bool) (l : List ActEvent) :
    (l ++ [ActEvent.relayOff]).foldl relayStep s = false := by
  rw [List.foldl_append]
  rfl

theorem relayOnAfter_on_body_off (l : List ActEvent) :
    relayOnAfter (ActEvent.relayOn :: (l ++ [ActEvent.relayOff])) = false := by
  rw [relayOnAfter, List.foldl_cons]
  exact foldl_relayStep_snoc_off _ l

/-- Claim C6: on every exit path of the mist actuation, normal
completion, actuator or rotation failure, or a raised exception after
the relay was switched on, the relay ends in the off state, in both
the gui.py worker and the guiExp.py combined mist-and-rotate helper. -/
theorem C6_relay_always_released (secondsPos gpioAvailable sleepRaises : Bool)
    (segments : ℕ) (raiseAfter : Option ℕ) :
    relayOnAfter (mistWorkerGui secondsPos gpioAvailable sleepRaises).1 = false ∧
    relayOnAfter (mistAndRotateExp segments raiseAfter).1 = false := by
  constructor
  · cases secondsPos <;> cases gpioAvailable <;> cases sleepRaises <;> rfl
  · cases raiseAfter with
    | none => exact relayOnAfter_on_body_off _
    | some k => exact relayOnAfter_on_body_off _

theorem firstExceed_latched (thr astart : Option ℚ) (v : ℚ) :
    ∀ (obs : List (ℚ × ℚ)) (st : AnalysisState), st.firstExceed = some v →
      (runAnalysis thr astart st obs).firstExceed = some v := by
  intro obs
  induction obs with
  | nil => intro st h; exact h
  | cons o rest ih =>
    intro st h
    rw [runAnalysis, List.foldl_cons]
    apply ih
    show updateFirstExceed thr astart st.firstExceed o.1 o.2 = some v
    rw [h]
    cases thr <;> rfl

theorem firstExceed_stays_none (t : ℚ) (astart : Option ℚ) :
    ∀ (obs : List (ℚ × ℚ)) (st : AnalysisState), st.firstExceed = none →
      (∀ p ∈ obs, p.1 ≤ t) →
      (runAnalysis (some t) astart st obs).firstExceed = none := by
  intro obs
  induction obs with
  | nil => intro st h _; exact h
  | cons o rest ih =>
    intro st h hle
    rw [runAnalysis, List.foldl_cons]
    apply ih
    · show updateFirstExceed (some t) astart st.firstExceed o.1 o.2 = none
      rw [h]
      have : ¬ t < o.1 := not_lt.mpr (hle o (List.mem_cons_self o rest))
      simp [updateFirstExceed, this]
    · intro p hp
      exact hle p (List.mem_cons_of_mem o hp)

/-- Claim C8: the first-exceed time is a write-once latch: it is set,
to the elapsed time since analysis start, at the first analysis
iteration whose frame mean exceeds the effective threshold, and any
further observations of the run leave it unchanged. -/
theorem C8_first_exceed_latch (t a0 lv tm : ℚ) (pre post : List (ℚ × ℚ))
    (st : AnalysisState) (h0 : st.firstExceed = none)
    (hpre : ∀ p ∈ pre, p.1 ≤ t) (hx : t < lv) :
    (runAnalysis (some t) (some a0) st (pre ++ (lv, tm) :: post)).firstExceed
      = some (tm - a0) ∧
    ∀ more : List (ℚ × ℚ),
      (runAnalysis (some t) (some a0)
        (runAnalysis (some t) (some a0) st (pre ++ (lv, tm) :: post))
        more).firstExceed = some (tm - a0) := by
  have hsplit : runAnalysis (some t) (some a0) st (pre ++ (lv, tm) :: post)
      = runAnalysis (some t) (some a0)
          (analysisStep (some t) (some a0)
            (runAnalysis (some t) (some a0) st pre) (lv, tm)) post := by
    rw [runAnalysis, List.foldl_append, List.foldl_cons]
    rfl
  have hpren : (runAnalysis (some t) (some a0) st pre).firstExceed = none :=
    firstExceed_stays_none t (some a0) pre st h0 hpre
  have hset : (analysisStep (some t) (some a0)
      (runAnalysis (some t) (some a0) st pre) (lv, tm)).firstExceed
      = some (tm - a0) := by
    show updateFirstExceed (some t) (some a0)
      (runAnalysis (some t) (some a0) st pre).firstExceed lv tm = some (tm - a0)
    rw [hpren]
    simp [updateFirstExceed, hx]
  have hmain : (runAnalysis (some t) (some a0) st (pre ++ (lv, tm) :: post)).firstExceed
      = some (tm - a0) := by
    rw [hsplit]
    exact firstExceed_latched (some t) (some a0) (tm - a0) post _ hset
  exact ⟨hmain, fun more => firstExceed_latched (some t) (some a0) (tm - a0) more _ hmain⟩

/-- Claim C8 witness: with threshold 1 and analysis start 0, the frame
sequence means 1 then 2 then 3 latches the first-exceed time at the
second frame, observed at time 5, and a later exceeding frame does not
overwrite it. -/
theorem C8_first_exceed_latch_witness :
    (runAnalysis (some 1) (some 0) ⟨none, 0, 0⟩
      ([((1:ℚ), (1:ℚ))] ++ ((2:ℚ), (5:ℚ)) :: [((3:ℚ), (6:ℚ))])).firstExceed
      = some ((5:ℚ) - 0) ∧
    ∀ more : List (ℚ × ℚ),
      (runAnalysis (some 1) (some 0)
        (runAnalysis (some 1) (some 0) ⟨none, 0, 0⟩
          ([((1:ℚ), (1:ℚ))] ++ ((2:ℚ), (5:ℚ)) :: [((3:ℚ), (6:ℚ))]))
        more).firstExceed = some ((5:ℚ) - 0) :=
  C8_first_exceed_latch 1 0 2 5 [(1, 1)] [(3, 6)] ⟨none, 0, 0⟩ rfl
    (by intro p hp; rw [List.mem_singleton] at hp; subst hp; exact le_refl 1)
    (by norm_num)

theorem foldl_min_all_eq (c : ℚ) :
    ∀ l : List ℚ, (∀ v ∈ l, v = c) → l.foldl min c = c := by
  intro l
  induction l with
  | nil => intro _; rfl
  | cons x xs ih =>
    intro h
    rw [List.foldl_cons, h x (List.mem_cons_self x xs), min_self]
    exact ih fun v hv => h v (List.mem_cons_of_mem x hv)

theorem foldl_max_all_eq (c : ℚ) :
    ∀ l : List ℚ, (∀ v ∈ l, v = c) → l.foldl max c = c := by
  intro l
  induction l with
  | nil => intro _; rfl
  | cons x xs ih =>
    intro h
    rw [List.foldl_cons, h x (List.mem_cons_self x xs), max_self]
    exact ih fun v hv => h v (List.mem_cons_of_mem x hv)

theorem gridVals_eq_of_const (g : Grid) (c : ℚ)
    (h : ∀ v ∈ g.flatten, v = c) : gridMinVal g = gridMaxVal g := by
  rw [gridMinVal, gridMaxVal]
  cases hp : g.flatten with
  | nil => rfl
  | cons x rest =>
    have hx : x = c := h x (by rw [hp]; exact List.mem_cons_self x rest)
    have hrest : ∀ v ∈ rest, v = c := fun v hv =>
      h v (by rw [hp]; exact List.mem_cons_of_mem x hv)
    rw [List.headD_cons, List.foldl_cons, List.foldl_cons, min_self, max_self, hx]
    rw [foldl_min_all_eq c rest hrest, foldl_max_all_eq c rest hrest]

/-- Claim C9: heatmap finalization is total in the degenerate case:
when every pixel of the max projection carries the same value, the
normalization takes the all-zero branch instead of dividing by zero;
and whenever the scaling branch is taken its divisor is nonzero. -/
theorem C9_heatmap_norm_total (g : Grid) (c : ℚ)
    (hconst : ∀ v ∈ g.flatten, v = c) :
    finalizeHeatmapNorm g = g.map (List.map (fun _ => (0:ℚ))) ∧
    ∀ g2 : Grid, gridMinVal g2 < gridMaxVal g2 → gridMaxVal g2 - gridMinVal g2 ≠ 0 := by
  constructor
  · have hmm : gridMinVal g = gridMaxVal g := gridVals_eq_of_const g c hconst
    rw [finalizeHeatmapNorm, hmm, if_neg (lt_irrefl _)]
  · intro g2 h
    exact sub_ne_zero_of_ne (ne_of_gt h)

/-- Claim C9 witness: a ragged accumulator whose pixels all equal 2 is
normalized to the all-zero image. -/
theorem C9_heatmap_norm_total_witness :
    finalizeHeatmapNorm [[2, 2], [2]] = ([[2, 2], [2]] : Grid).map (List.map (fun _ => (0:ℚ))) ∧
    ∀ g2 : Grid, gridMinVal g2 < gridMaxVal g2 → gridMaxVal g2 - gridMinVal g2 ≠ 0 :=
  C9_heatmap_norm_total [[2, 2], [2]] 2
    (by intro v hv; simp_all [List.flatten])

theorem rowsWithId_saveRunDb_self (t : List (String × RunRow)) (i : String) (r : RunRow) :
    rowsWithId (saveRunDb t i r) i = 1 := by
  rw [rowsWithId, saveRunDb, List.filter_cons]
  simp only [beq_self_eq_true, if_true]
  rw [List.filter_filter]
  have : ∀ p : String × RunRow, ((p.1 == i) && (p.1 != i)) = false := by
    intro p
    cases h : p.1 == i <;> simp [bne, h]
  rw [List.filter_congr (fun p _ => this p)]
  simp

theorem rowsWithId_saveRunDb_other (t : List (String × RunRow)) (i j : String)
    (r : RunRow) (h : i ≠ j) :
    rowsWithId (saveRunDb t j r) i ≤ rowsWithId t i := by
  rw [rowsWithId, saveRunDb, List.filter_cons]
  have hj : (j == i) = false := beq_eq_false_iff_ne.mpr (Ne.symm h)
  rw [if_neg (by simp [hj])]
  rw [List.filter_filter, rowsWithId]
  apply List.Sublist.length_le
  apply List.monotone_filter_right
  intro p hp
  simp only [Bool.and_eq_true] at hp
  exact hp.1

theorem rowsWithId_saveRunDb_le (t : List (String × RunRow)) (j : String)
    (r : RunRow) (i : String) (h : rowsWithId t i ≤ 1) :
    rowsWithId (saveRunDb t j r) i ≤ 1 := by
  by_cases hij : i = j
  · subst hij
    rw [rowsWithId_saveRunDb_self]
  · exact le_trans (rowsWithId_saveRunDb_other t i j r hij) h

theorem rowsWithId_applySaves (calls : List (String × RunRow)) :
    ∀ t : List (String × RunRow), (∀ i, rowsWithId t i ≤ 1) →
      ∀ i, rowsWithId (applySaves t calls) i ≤ 1 := by
  induction calls with
  | nil => intro t h i; exact h i
  | cons c rest ih =>
    intro t h i
    rw [applySaves, List.foldl_cons]
    exact ih (saveRunDb t c.1 c.2)
      (fun k => rowsWithId_saveRunDb_le t c.1 c.2 k (h k)) i

/-- Claim C10: save_run never raises a uniqueness error on a repeated
timestamp id: INSERT OR REPLACE makes the second write replace the
first row, and after any sequence of save_run calls starting from an
empty table at most one row per id exists. -/
theorem C10_insert_or_replace :
    (∀ (t : List (String × RunRow)) (i : String) (r1 r2 : RunRow),
      (saveRunDb (saveRunDb t i r1) i r2).lookup i = some r2) ∧
    (∀ (t : List (String × RunRow)) (i : String) (r1 r2 : RunRow),
      rowsWithId (saveRunDb (saveRunDb t i r1) i r2) i = 1) ∧
    (∀ (calls : List (String × RunRow)) (i : String),
      rowsWithId (applySaves [] calls) i ≤ 1) := by
  refine ⟨?_, ?_, ?_⟩
  · intro t i r1 r2
    rw [saveRunDb]
    simp [List.lookup]
  · intro t i r1 r2
    exact rowsWithId_saveRunDb_self _ i r2
  · intro calls i
    refine rowsWithId_applySaves calls [] ?_ i
    intro k
    simp [rowsWithId]

theorem percentile_le_of_le (q B : ℚ) (hq0 : 0 ≤ q) (hq1 : q ≤ 100)
    (xs : List ℚ) (hne : xs ≠ []) (hB : ∀ x ∈ xs, x ≤ B) :
    percentile q xs ≤ B := by
  have hperm := List.perm_insertionSort (fun a b => a ≤ b) xs
  have hsl : (sortedSamples xs).length = xs.length := hperm.length_eq
  have hmem : ∀ y ∈ sortedSamples xs, y ≤ B := fun y hy => hB y (hperm.mem_iff.mp hy)
  have hn1 : 1 ≤ xs.length := List.length_pos.mpr hne
  have hcast : (1:ℚ) ≤ (xs.length : ℚ) := by exact_mod_cast hn1
  have hpos0 : 0 ≤ percentilePos q xs.length := by
    rw [percentilePos]
    apply div_nonneg _ (by norm_num)
    exact mul_nonneg hq0 (by linarith)
  have hposle : percentilePos q xs.length ≤ (xs.length : ℚ) - 1 := by
    rw [percentilePos, div_le_iff₀ (by norm_num : (0:ℚ) < 100)]
    nlinarith
  have hfl2 : ⌊percentilePos q xs.length⌋ ≤ (xs.length : ℤ) - 1 := by
    have h2 : percentilePos q xs.length ≤ (((xs.length : ℤ) - 1 : ℤ) : ℚ) := by
      push_cast
      linarith
    calc ⌊percentilePos q xs.length⌋ ≤ ⌊(((xs.length : ℤ) - 1 : ℤ) : ℚ)⌋ :=
          Int.floor_le_floor h2
      _ = (xs.length : ℤ) - 1 := Int.floor_intCast _
  have hfl0 : (0:ℤ) ≤ ⌊percentilePos q xs.length⌋ := Int.floor_nonneg.mpr hpos0
  have hi_lt : (⌊percentilePos q xs.length⌋).toNat < xs.length := by omega
  have hj_lt : min ((⌊percentilePos q xs.length⌋).toNat + 1) (xs.length - 1) < xs.length := by
    omega
  have hlo : (sortedSamples xs).getD (⌊percentilePos q xs.length⌋).toNat 0 ≤ B := by
    rw [List.getD_eq_getElem _ _ (by rw [hsl]; exact hi_lt)]
    exact hmem _ (List.getElem_mem _)
  have hhi : (sortedSamples xs).getD
      (min ((⌊percentilePos q xs.length⌋).toNat + 1) (xs.length - 1)) 0 ≤ B := by
    rw [List.getD_eq_getElem _ _ (by rw [hsl]; exact hj_lt)]
    exact hmem _ (List.getElem_mem _)
  have hfrac0 : 0 ≤ percentilePos q xs.length - (⌊percentilePos q xs.length⌋ : ℚ) :=
    sub_nonneg.mpr (Int.floor_le _)
  have hfrac1 : percentilePos q xs.length - (⌊percentilePos q xs.length⌋ : ℚ) ≤ 1 := by
    have := Int.lt_floor_add_one (percentilePos q xs.length)
    linarith
  simp only [percentile]
  nlinarith [mul_nonneg hfrac0 (sub_nonneg.mpr hhi),
    mul_nonneg (sub_nonneg.mpr hfrac1) (sub_nonneg.mpr hlo)]

/-- Claim C2: for a non-empty baseline whose samples lie in the 0..255
brightness range, the estimator computes the guard band as the maximum
of the absolute floor and sigma times the unbiased sample std, the
effective threshold as the baseline quantile plus the guard band
clamped to 0..255, and consequently the effective threshold is at
least the baseline quantile and the guard band at least the floor; the
corresponding (unclamped) inequalities also hold for the gui.py
estimator. -/
theorem C2_threshold_estimator (samples : List ℚ) (bstd : ℚ)
    (hne : samples ≠ []) (hrange : ∀ x ∈ samples, 0 ≤ x ∧ x ≤ 255)
    (hstd : IsBaselineStd samples bstd) :
    (estimateThresholdExp samples bstd).guardBand =
      max GUARD_MEAN_ABS (GUARD_MEAN_SIGMA * (estimateThresholdExp samples bstd).baselineStd) ∧
    (estimateThresholdExp samples bstd).effectiveThreshold =
      npClip ((estimateThresholdExp samples bstd).baselineQuantile +
        (estimateThresholdExp samples bstd).guardBand) 0 255 ∧
    GUARD_MEAN_ABS ≤ (estimateThresholdExp samples bstd).guardBand ∧
    (estimateThresholdExp samples bstd).baselineQuantile ≤
      (estimateThresholdExp samples bstd).effectiveThreshold ∧
    GUARD_ABS ≤ (estimateThresholdGui samples bstd).guardBand ∧
    (estimateThresholdGui samples bstd).baselineQuantile ≤
      (estimateThresholdGui samples bstd).effectiveThreshold := by
  have hq255 : percentile BASELINE_Q samples ≤ 255 :=
    percentile_le_of_le BASELINE_Q 255 (by norm_num [BASELINE_Q])
      (by norm_num [BASELINE_Q]) samples hne (fun x hx => (hrange x hx).2)
  have hg0 : (0:ℚ) ≤ guardBandExp bstd :=
    le_trans (by norm_num [GUARD_MEAN_ABS]) (le_max_left GUARD_MEAN_ABS _)
  refine ⟨rfl, rfl, le_max_left _ _, ?_, le_max_left _ _, ?_⟩
  · show percentile BASELINE_Q samples ≤
      npClip (percentile BASELINE_Q samples + guardBandExp bstd) 0 255
    rw [npClip]
    exact le_min hq255 (le_trans (le_add_of_nonneg_right hg0) (le_max_left _ _))
  · show percentile 95 samples ≤ effectiveThresholdGui (percentile 95 samples) bstd
    rw [effectiveThresholdGui]
    have hgg : (0:ℚ) ≤ guardBandGui bstd :=
      le_trans (by norm_num [GUARD_ABS]) (le_max_left GUARD_ABS _)
    linarith

/-- Claim C2 witness: the baseline samples 0.28, 0.30, 0.32 have mean
0.30 and unbiased variance 0.0004, so their sample std is 0.02. -/
theorem C2_threshold_estimator_witness :
    (estimateThresholdExp [7/25, 3/10, 8/25] (1/50)).guardBand =
      max GUARD_MEAN_ABS
        (GUARD_MEAN_SIGMA * (estimateThresholdExp [7/25, 3/10, 8/25] (1/50)).baselineStd) ∧
    (estimateThresholdExp [7/25, 3/10, 8/25] (1/50)).effectiveThreshold =
      npClip ((estimateThresholdExp [7/25, 3/10, 8/25] (1/50)).baselineQuantile +
        (estimateThresholdExp [7/25, 3/10, 8/25] (1/50)).guardBand) 0 255 ∧
    GUARD_MEAN_ABS ≤ (estimateThresholdExp [7/25, 3/10, 8/25] (1/50)).guardBand ∧
    (estimateThresholdExp [7/25, 3/10, 8/25] (1/50)).baselineQuantile ≤
      (estimateThresholdExp [7/25, 3/10, 8/25] (1/50)).effectiveThreshold ∧
    GUARD_ABS ≤ (estimateThresholdGui [7/25, 3/10, 8/25] (1/50)).guardBand ∧
    (estimateThresholdGui [7/25, 3/10, 8/25] (1/50)).baselineQuantile ≤
      (estimateThresholdGui [7/25, 3/10, 8/25] (1/50)).effectiveThreshold :=
  C2_threshold_estimator [7/25, 3/10, 8/25] (1/50) (by simp)
    (by
      intro x hx
      simp only [List.mem_cons, List.not_mem_nil, or_false] at hx
      rcases hx with rfl | rfl | rfl <;> norm_num)
    (by
      constructor
      · norm_num
      · norm_num [unbiasedVariance, sampleMean])

theorem hasShape_gridMax {h w : ℕ} {a b : Grid}
    (ha : HasShape h w a) (hb : HasShape h w b) : HasShape h w (gridMax a b) := by
  constructor
  · rw [gridMax, List.length_zipWith, ha.1, hb.1, min_self]
  · intro r hr
    obtain ⟨k, hk, hr⟩ := List.mem_iff_getElem.mp hr
    have hka : k < a.length := by
      rw [gridMax, List.length_zipWith, ha.1, hb.1, min_self] at hk
      rw [ha.1]
      exact hk
    have hkb : k < b.length := by
      rw [hb.1, ← ha.1]
      exact hka
    rw [← hr]
    simp only [gridMax, List.getElem_zipWith]
    rw [rowMax, List.length_zipWith]
    rw [ha.2 _ (List.getElem_mem hka), hb.2 _ (List.getElem_mem hkb), min_self]

theorem pixel_gridMax {h w : ℕ} {a b : Grid}
    (ha : HasShape h w a) (hb : HasShape h w b)
    {i j : ℕ} (hi : i < h) (hj : j < w) :
    pixel (gridMax a b) i j = max (pixel a i j) (pixel b i j) := by
  have hia : i < a.length := by rw [ha.1]; exact hi
  have hib : i < b.length := by rw [hb.1]; exact hi
  have hig : i < (gridMax a b).length := by
    rw [(hasShape_gridMax ha hb).1]
    exact hi
  rw [pixel, pixel, pixel]
  rw [List.getD_eq_getElem _ _ hig, List.getD_eq_getElem _ _ hia,
    List.getD_eq_getElem _ _ hib]
  simp only [gridMax, List.getElem_zipWith]
  have hja : j < (a[i]).length := by rw [ha.2 _ (List.getElem_mem hia)]; exact hj
  have hjb : j < (b[i]).length := by rw [hb.2 _ (List.getElem_mem hib)]; exact hj
  have hjr : j < (rowMax a[i] b[i]).length := by
    rw [rowMax, List.length_zipWith]
    omega
  rw [List.getD_eq_getElem _ _ hjr, List.getD_eq_getElem _ _ hja,
    List.getD_eq_getElem _ _ hjb]
  simp only [rowMax, List.getElem_zipWith]

theorem rowMax_comm (a : List ℚ) : ∀ b : List ℚ, rowMax a b = rowMax b a := by
  induction a with
  | nil => intro b; cases b <;> rfl
  | cons x xs ih =>
    intro b
    cases b with
    | nil => rfl
    | cons y ys =>
      simp only [rowMax, List.zipWith_cons_cons] at *
      rw [max_comm, ih ys]

theorem rowMax_right_comm (a : List ℚ) :
    ∀ b c : List ℚ, rowMax (rowMax a b) c = rowMax (rowMax a c) b := by
  induction a with
  | nil => intro b c; cases b <;> cases c <;> rfl
  | cons x xs ih =>
    intro b c
    cases b with
    | nil => cases c <;> rfl
    | cons y ys =>
      cases c with
      | nil => rfl
      | cons z zs =>
        simp only [rowMax, List.zipWith_cons_cons] at *
        rw [sup_right_comm x y z, ih ys zs]

theorem gridMax_comm (a : Grid) : ∀ b : Grid, gridMax a b = gridMax b a := by
  induction a with
  | nil => intro b; cases b <;> rfl
  | cons x xs ih =>
    intro b
    cases b with
    | nil => rfl
    | cons y ys =>
      simp only [gridMax, List.zipWith_cons_cons] at *
      rw [rowMax_comm x y, ih ys]

theorem gridMax_right_comm (a : Grid) :
    ∀ b c : Grid, gridMax (gridMax a b) c = gridMax (gridMax a c) b := by
  induction a with
  | nil => intro b c; cases b <;> cases c <;> rfl
  | cons x xs ih =>
    intro b c
    cases b with
    | nil => cases c <;> rfl
    | cons y ys =>
      cases c with
      | nil => rfl
      | cons z zs =>
        simp only [gridMax, List.zipWith_cons_cons] at *
        rw [rowMax_right_comm x y z, ih ys zs]

theorem heatmapStep_right_comm (a : Option Grid) (g1 g2 : Grid) :
    heatmapStep (heatmapStep a g1) g2 = heatmapStep (heatmapStep a g2) g1 := by
  cases a with
  | none => simp [heatmapStep, accumHeatmap, gridMax_comm g1 g2]
  | some x => simp [heatmapStep, accumHeatmap, gridMax_right_comm x g1 g2]

theorem processFrames_perm {l1 l2 : List Grid} (p : l1.Perm l2) :
    ∀ acc : Option Grid, processFrames acc l1 = processFrames acc l2 := by
  induction p with
  | nil => intro acc; rfl
  | cons x _ ih =>
    intro acc
    simp only [processFrames, List.foldl_cons] at *
    exact ih _
  | swap x y l =>
    intro acc
    simp only [processFrames, List.foldl_cons]
    rw [heatmapStep_right_comm]
  | trans _ _ ih1 ih2 =>
    intro acc
    rw [ih1 acc, ih2 acc]

theorem processFrames_some (l : List Grid) :
    ∀ a : Grid, processFrames (some a) l = some (l.foldl gridMax a) := by
  induction l with
  | nil => intro a; rfl
  | cons g gs ih =>
    intro a
    simp only [processFrames, List.foldl_cons] at *
    exact ih (gridMax a g)

theorem foldl_gridMax_char {h w : ℕ} (fs : List Grid) :
    ∀ f : Grid, HasShape h w f → (∀ g ∈ fs, HasShape h w g) →
      HasShape h w (fs.foldl gridMax f) ∧
      ∀ i, i < h → ∀ j, j < w →
        (∀ g ∈ f :: fs, pixel g i j ≤ pixel (fs.foldl gridMax f) i j) ∧
        (∃ g ∈ f :: fs, pixel (fs.foldl gridMax f) i j = pixel g i j) := by
  induction fs with
  | nil =>
    intro f hf _
    refine ⟨hf, ?_⟩
    intro i _ j _
    constructor
    · intro g hg
      rw [List.mem_singleton] at hg
      rw [hg, List.foldl_nil]
    · exact ⟨f, List.mem_singleton_self f, rfl⟩
  | cons g gs ih =>
    intro f hf hgs
    have hg : HasShape h w g := hgs g (List.mem_cons_self g gs)
    have hgs2 : ∀ x ∈ gs, HasShape h w x := fun x hx => hgs x (List.mem_cons_of_mem g hx)
    have hfg : HasShape h w (gridMax f g) := hasShape_gridMax hf hg
    obtain ⟨hshape, hchar⟩ := ih (gridMax f g) hfg hgs2
    rw [List.foldl_cons]
    refine ⟨hshape, ?_⟩
    intro i hi j hj
    obtain ⟨hub, hex⟩ := hchar i hi j hj
    have hpx : pixel (gridMax f g) i j = max (pixel f i j) (pixel g i j) :=
      pixel_gridMax hf hg hi hj
    constructor
    · intro x hx
      rcases List.mem_cons.mp hx with rfl | hx2
      · refine le_trans ?_ (hub _ (List.mem_cons_self _ _))
        rw [hpx]
        exact le_max_left _ _
      rcases List.mem_cons.mp hx2 with rfl | hx3
      · refine le_trans ?_ (hub _ (List.mem_cons_self _ _))
        rw [hpx]
        exact le_max_right _ _
      · exact hub x (List.mem_cons_of_mem _ hx3)
    · obtain ⟨y, hy, hval⟩ := hex
      rcases List.mem_cons.mp hy with rfl | hy2
      · rcases max_choice (pixel f i j) (pixel g i j) with hm | hm
        · refine ⟨f, List.mem_cons_self f _, ?_⟩
          rw [hval, hpx, hm]
        · refine ⟨g, List.mem_cons_of_mem f (List.mem_cons_self g gs), ?_⟩
          rw [hval, hpx, hm]
      · exact ⟨y, List.mem_cons_of_mem f (List.mem_cons_of_mem g hy2), hval⟩

/-- Claim C5: after processing a non-empty sequence of frames of one
shape, the heatmap accumulator is exactly the pixel-wise maximum over
all the frames (it dominates every frame and is attained by one); it is
initialized to the first frame, the result does not depend on the
processing order, and folding in one more frame never decreases any
pixel. -/
theorem C5_heatmap_pixelwise_max (h w : ℕ) (f : Grid) (fs : List Grid)
    (hf : HasShape h w f) (hfs : ∀ g ∈ fs, HasShape h w g) :
    (∃ A : Grid, processFrames none (f :: fs) = some A ∧ HasShape h w A ∧
      ∀ i, i < h → ∀ j, j < w →
        (∀ g ∈ f :: fs, pixel g i j ≤ pixel A i j) ∧
        (∃ g ∈ f :: fs, pixel A i j = pixel g i j)) ∧
    processFrames none [f] = some f ∧
    (∀ l1 l2 : List Grid, l1.Perm l2 →
      ∀ acc : Option Grid, processFrames acc l1 = processFrames acc l2) ∧
    (∀ B g2 : Grid, HasShape h w B → HasShape h w g2 →
      ∀ i, i < h → ∀ j, j < w → pixel B i j ≤ pixel (accumHeatmap (some B) g2) i j) := by
  refine ⟨?_, rfl, fun l1 l2 p => processFrames_perm p, ?_⟩
  · have hrun : processFrames none (f :: fs) = some (fs.foldl gridMax f) := by
      simp only [processFrames, List.foldl_cons]
      exact processFrames_some fs f
    obtain ⟨hs, hc⟩ := foldl_gridMax_char fs f hf hfs
    exact ⟨fs.foldl gridMax f, hrun, hs, hc⟩
  · intro B g2 hB hg2 i hi j hj
    show pixel B i j ≤ pixel (gridMax B g2) i j
    rw [pixel_gridMax hB hg2 hi hj]
    exact le_max_left _ _

/-- Claim C5 witness: two 2-by-2 frames; the accumulator is their
pixel-wise maximum. -/
theorem C5_heatmap_pixelwise_max_witness :
    (∃ A : Grid,
      processFrames none ([[1, 2], [3, 4]] :: [[[2, 1], [0, 5]]]) = some A ∧
      HasShape 2 2 A ∧
      ∀ i, i < 2 → ∀ j, j < 2 →
        (∀ g ∈ ([[1, 2], [3, 4]] : Grid) :: [[[2, 1], [0, 5]]],
          pixel g i j ≤ pixel A i j) ∧
        (∃ g ∈ ([[1, 2], [3, 4]] : Grid) :: [[[2, 1], [0, 5]]],
          pixel A i j = pixel g i j)) ∧
    processFrames none [[[1, 2], [3, 4]]] = some [[1, 2], [3, 4]] ∧
    (∀ l1 l2 : List Grid, l1.Perm l2 →
      ∀ acc : Option Grid, processFrames acc l1 = processFrames acc l2) ∧
    (∀ B g2 : Grid, HasShape 2 2 B → HasShape 2 2 g2 →
      ∀ i, i < 2 → ∀ j, j < 2 → pixel B i j ≤ pixel (accumHeatmap (some B) g2) i j) :=
  C5_heatmap_pixelwise_max 2 2 [[1, 2], [3, 4]] [[[2, 1], [0, 5]]]
    (by
      constructor
      · rfl
      · intro r hr
        simp only [List.mem_cons, List.not_mem_nil, or_false] at hr
        rcases hr with rfl | rfl <;> rfl)
    (by
      intro g hg
      simp only [List.mem_singleton] at hg
      subst hg
      constructor
      · rfl
      · intro r hr
        simp only [List.mem_cons, List.not_mem_nil, or_false] at hr
        rcases hr with rfl | rfl <;> rfl)

end Bloodray
